import Mathlib

/-!
Shallow embedding of the comfylogger library (src/src/logger.ts) in Lean 4,
together with theorems settling the frozen claims about its specification.

The embedding translates the source functions directly:
  * `makeStyle`        — logger.ts lines 408-413
  * `renderTagged`     — the tagged-template branch of `ComfyLogger.#render` (lines 228-235)
  * `renderOrdinary`   — the ordinary-call branch of `ComfyLogger.#render` (lines 236-241)
  * `shouldLog`        — `ComfyLogger.#shouldLog` (lines 260-281)
  * `stripAnsiChars`   — the `stripAnsi` regex replace inside `log` (lines 314-315)
  * `logRun`           — `ComfyLogger.log` (lines 283-347), with the externally
                         observable effects (console lines, listener dispatches,
                         network request, return value) made explicit
  * `configure`        — `ComfyLogger.configure` (lines 221-223)
  * `removeEventListener` — logger.ts lines 202-219

JavaScript runtime values that can appear as log arguments are modelled by
`JSVal` (strings, zero-argument-callable style functions, and `undefined`);
a JS function invoked as `val()` receives `undefined` for its optional text
parameter, modelled as `Option.none`.
-/

/-- Modelled from the spec: the escape-code table module (`src/util/ansi.js`,
imported by logger.ts line 1) is not present under src/; per the spec glossary
the reset code is "the specific escape sequence that restores terminal default
styling", i.e. the standard ANSI reset sequence `ESC[0m`. -/
def RESET : String := "\x1b[0m"

/-- A JavaScript value that may be passed to `log` or interpolated into a
tagged template: a string, a callable (e.g. a StyleFunction, whose optional
text argument is modelled by `Option String`), or `undefined`. -/
inductive JSVal where
  | str : String → JSVal
  | fn : (Option String → String) → JSVal
  | undef : JSVal

/-- `makeStyle` (logger.ts lines 408-413): the returned style function maps
no argument (`undefined`, modelled `Option.none`) to the bare code, and text
to `code ++ text ++ RESET`. -/
def makeStyle (code : String) (text : Option String) : String :=
  match text with
  | Option.none => code
  | Option.some t => code ++ t ++ RESET

/-- `typeof val === 'function' ? val() : String(val)` (logger.ts lines 232,
239): invoke a callable with no argument, otherwise string-convert
(`String(undefined)` is `"undefined"` in JavaScript). -/
def renderArg : JSVal → String
  | JSVal.fn f => f Option.none
  | JSVal.str s => s
  | JSVal.undef => "undefined"

/-- The contribution of `values[i-1]` in the tagged-template reduce
(logger.ts lines 230-233): `val !== undefined ? (typeof val === 'function'
? val() : String(val)) : ''`.  `Option.none` models an out-of-range index
(JavaScript yields `undefined` there). -/
def taggedPart : Option JSVal → String
  | Option.none => ""
  | Option.some JSVal.undef => ""
  | Option.some (JSVal.str s) => s
  | Option.some (JSVal.fn f) => f Option.none

/-- The body of the `reduce` in the tagged-template branch of
`ComfyLogger.#render` (logger.ts lines 229-235): iterate over the literal
parts with their index `i`, appending `taggedPart values[i-1]` and then the
part (for `i = 0`, `values[-1]` is `undefined`). -/
def renderTaggedLoop (vs : List JSVal) : List String → Nat → String → String
  | [], _, acc => acc
  | str :: rest, i, acc =>
      renderTaggedLoop vs rest (i + 1)
        (acc ++ taggedPart (if i = 0 then Option.none else vs.get? (i - 1)) ++ str)

/-- The tagged-template branch of `ComfyLogger.#render` (logger.ts lines
228-235). -/
def renderTagged (parts : List String) (values : List JSVal) : String :=
  renderTaggedLoop values parts 0 ""

/-- The ordinary-call branch of `ComfyLogger.#render` (logger.ts lines
236-241): `[strings, ...values].map(...).join(separator)`. -/
def renderOrdinary (autoSpace : Bool) (args : List JSVal) : String :=
  let separator := if autoSpace then " " else ""
  String.intercalate separator (args.map renderArg)

/-- The positional interleaving formula of claim C3 / spec §4.4(a):
`parts[0] + r(values[0]) + parts[1] + … + parts[n]`, parameterised by the
per-value rendering `r`.  (Spec-side definition, for comparison with
`renderTagged`; meaningful when `parts.length = values.length + 1`.) -/
def interleaveWith (r : JSVal → String) : List String → List JSVal → String
  | [], _ => ""
  | p :: _, [] => p
  | p :: ps, v :: vs => p ++ r v ++ interleaveWith r ps vs

/-- The per-value rendering exactly as claim C3 words it: invoke a value with
no argument if it is callable, otherwise string-convert it. -/
def renderValueSpecC3 : JSVal → String
  | JSVal.fn f => f Option.none
  | JSVal.str s => s
  | JSVal.undef => "undefined"

/-- The per-value rendering the code actually performs on interpolated
values: like `renderValueSpecC3`, except that `undefined` contributes the
empty string (logger.ts lines 231-233). -/
def renderValueAmended : JSVal → String
  | JSVal.fn f => f Option.none
  | JSVal.str s => s
  | JSVal.undef => ""

/-- Tail of the interleaving as produced by the reduce loop from index 1 on:
for each remaining part, the rendered value (empty once values run out)
followed by the part. -/
def renderTaggedTail : List String → List JSVal → String
  | [], _ => ""
  | p :: ps, [] => p ++ renderTaggedTail ps []
  | p :: ps, v :: vs => renderValueAmended v ++ p ++ renderTaggedTail ps vs

/-! ### The escape-stripping function

`stripAnsi` (logger.ts lines 314-315) is
`msg.replace(/\x1b(\[[0-9;]*m|]8;;.*?[\u0007]|]8;;[\u0007])/g, '')`.
Global replace-with-empty: scan left to right, and wherever the pattern
matches, drop the matched characters and continue after them. -/

/-- Match the first regex alternative after `ESC[`: `[0-9;]*` then `m`
(greedy class; `m` is not in the class).  Returns the rest of the input
after the match. -/
def scanCSI : List Char → Option (List Char)
  | [] => Option.none
  | c :: rest =>
      if c = 'm' then Option.some rest
      else if c.isDigit || c = ';' then scanCSI rest
      else Option.none

/-- Match the middle of the second regex alternative after `ESC]8;;`:
lazy `.*?` then BEL.  `.` does not match line terminators, and laziness
means the first BEL terminates the match. -/
def scanBell : List Char → Option (List Char)
  | [] => Option.none
  | c :: rest =>
      if c = '\x07' then Option.some rest
      else if c = '\n' || c = '\r' || c = '\u2028' || c = '\u2029' then Option.none
      else scanBell rest

/-- Match what follows an `ESC` against the three regex alternatives
`\[[0-9;]*m`, `]8;;.*?BEL`, `]8;;BEL` (the third is the second with an
empty lazy middle, so `scanBell` covers both). -/
def matchAfterEsc : List Char → Option (List Char)
  | '[' :: rest => scanCSI rest
  | ']' :: '8' :: ';' :: ';' :: rest => scanBell rest
  | _ => Option.none

/-- Fuel-indexed global replace-with-empty scan; every step consumes at
least one character, so fuel equal to the input length suffices. -/
def stripAnsiFuel : Nat → List Char → List Char
  | 0, cs => cs
  | _ + 1, [] => []
  | fuel + 1, c :: rest =>
      if c = '\x1b' then
        match matchAfterEsc rest with
        | Option.some restAfter => stripAnsiFuel fuel restAfter
        | Option.none => c :: stripAnsiFuel fuel rest
      else c :: stripAnsiFuel fuel rest

/-- `stripAnsi` on the character list of the message. -/
def stripAnsiChars (cs : List Char) : List Char :=
  stripAnsiFuel cs.length cs

/-- The `stripAnsi` helper inside `ComfyLogger.log` (logger.ts lines
314-315). -/
def stripAnsi (msg : String) : String :=
  String.mk (stripAnsiChars msg.data)

/-- Whether the escape-removal pattern matches anywhere in the text (every
match starts with `ESC` followed by a successful `matchAfterEsc`). -/
def hasEscMatch : List Char → Bool
  | [] => false
  | c :: rest => (decide (c = '\x1b') && (matchAfterEsc rest).isSome) || hasEscMatch rest

/-! ### Tag filtering -/

/-- `ComfyLogger.#shouldLog` (logger.ts lines 260-281), translated with its
exact control flow: per tag, `whitelisted` starts `false`; if the tag is
blacklisted and not whitelisted, `whitelisted` is set to `true`; then if
`whitelisted` is still `false` the function returns `false`.  The
blacklist/whitelist sets of the process-wide registry are passed as lists. -/
def shouldLog (bl wl : List String) : List String → Bool
  | [] => true
  | tag :: rest =>
      let whitelisted0 := false
      if bl.contains tag then
        let whitelisted1 := if !(wl.contains tag) then true else whitelisted0
        if !whitelisted1 then false else shouldLog bl wl rest
      else shouldLog bl wl rest

/-! ### Configuration -/

/-- `ComfyLoggerExternalLoggingOptions` (logger.ts lines 21-26); the
`onError` callback is never consulted by `log`, so its presence is modelled
by `Option Unit`. -/
structure ExternalLoggingOptions where
  url : String
  headers : Option (List (String × String)) := Option.none
  method : Option String := Option.none
  onError : Option Unit := Option.none
deriving DecidableEq

/-- `LoggerRuntimeConfig` (logger.ts lines 3-16); optional fields are
`Option`s, matching the `?:` fields of the TypeScript type. -/
structure LoggerRuntimeConfig where
  autoSpaceBetween : Bool
  timestampFormat : Option String := Option.none
  trimBefore : Option String := Option.none
  trimAfter : Option String := Option.none
  externalLogging : Option ExternalLoggingOptions := Option.none
  console : Option Bool := Option.none
  tags : Option (List String) := Option.none
  logErrorsToConsole : Option Bool := Option.none
deriving DecidableEq

/-- `Partial<LoggerRuntimeConfig>`: each field either absent from the record
(outer `Option.none`) or present with a value of the field type. -/
structure OptionsPatch where
  autoSpaceBetween : Option Bool := Option.none
  timestampFormat : Option (Option String) := Option.none
  trimBefore : Option (Option String) := Option.none
  trimAfter : Option (Option String) := Option.none
  externalLogging : Option (Option ExternalLoggingOptions) := Option.none
  console : Option (Option Bool) := Option.none
  tags : Option (Option (List String)) := Option.none
  logErrorsToConsole : Option (Option Bool) := Option.none
deriving DecidableEq

/-- `ComfyLogger.configure` (logger.ts lines 221-223):
`this.options = { ...this.options, ...options }` — a shallow merge where a
key present in the patch overrides the current value. -/
def configure (opts : LoggerRuntimeConfig) (p : OptionsPatch) : LoggerRuntimeConfig :=
  { autoSpaceBetween := p.autoSpaceBetween.getD opts.autoSpaceBetween
    timestampFormat := p.timestampFormat.getD opts.timestampFormat
    trimBefore := p.trimBefore.getD opts.trimBefore
    trimAfter := p.trimAfter.getD opts.trimAfter
    externalLogging := p.externalLogging.getD opts.externalLogging
    console := p.console.getD opts.console
    tags := p.tags.getD opts.tags
    logErrorsToConsole := p.logErrorsToConsole.getD opts.logErrorsToConsole }

/-! ### The log pipeline -/

/-- The `{output, stripped}` pair handed to listeners and returned by `log`
(logger.ts lines 317-320). -/
structure LogResult where
  output : String
  stripped : String
deriving DecidableEq

/-- A log event listener; a JavaScript listener may throw, modelled by
`Except String Unit` (the `String` is the thrown error rendered for the
`console.error` report). -/
def ListenerFn : Type := LogResult → Except String Unit

/-- The fire-and-forget request handed to `fetch` (logger.ts lines 330-344);
`body` carries the message of the JSON body `{message: stripped}`. -/
structure NetworkRequest where
  url : String
  method : String
  headers : List (String × String)
  body : String
deriving DecidableEq

/-- The externally observable effects of one `log` call. -/
structure LogEffects where
  /-- strings passed to `console.log` -/
  consoleLines : List String
  /-- strings passed to `console.error` by the listener dispatch loop -/
  consoleErrors : List String
  /-- the argument passed to each invoked listener, in invocation order -/
  deliveries : List LogResult
  /-- the external-logging request, when one is issued -/
  networkCall : Option NetworkRequest
  /-- the value returned to the caller (`Option.none` = returns nothing) -/
  returned : Option LogResult

/-- The mutable state of a `ComfyLogger` instance that `log` consults. -/
structure LoggerState where
  options : LoggerRuntimeConfig
  listeners : List ListenerFn
  transformersBefore : List (String → String)
  transformersAfter : List (String → String)

/-- The two call shapes of `log` (logger.ts line 228 distinguishes a
tagged-template first argument by `Array.isArray(strings) && 'raw' in
strings`). -/
inductive LogArgs where
  | tagged : List String → List JSVal → LogArgs
  | ordinary : JSVal → List JSVal → LogArgs

/-- `ComfyLogger.#render` (logger.ts lines 225-244), dispatching on the call
shape. -/
def render (autoSpace : Bool) : LogArgs → String
  | LogArgs.tagged parts values => renderTagged parts values
  | LogArgs.ordinary first rest => renderOrdinary autoSpace (first :: rest)

/-- JavaScript truthiness of an optional string (`undefined` and `''` are
falsy) — used for `trimBefore` / `trimAfter` (logger.ts lines 300, 304). -/
def truthyStr : Option String → Bool
  | Option.none => false
  | Option.some s => !s.isEmpty

/-- JavaScript truthiness of an optional boolean — used for
`options.console` (logger.ts line 310). -/
def truthyBool : Option Bool → Bool
  | Option.none => false
  | Option.some b => b

/-- The listener dispatch loop (logger.ts lines 322-328): invoke every
listener with the result object inside a try/catch; a thrown error is
reported via `console.error` and the loop continues. -/
def dispatchAll (listeners : List ListenerFn) (r : LogResult) :
    List LogResult × List String :=
  listeners.foldl
    (fun acc onLog =>
      match onLog r with
      | Except.ok _ => (acc.1 ++ [r], acc.2)
      | Except.error e => (acc.1 ++ [r], acc.2 ++ ["Error in log event listener: " ++ e]))
    ([], [])

/-- `ComfyLogger.log` (logger.ts lines 283-347).  `bl`/`wl` are the
process-wide blacklist/whitelist registry contents consulted by
`#shouldLog`. -/
def logRun (bl wl : List String) (st : LoggerState) (args : LogArgs) : LogEffects :=
  if !(shouldLog bl wl (st.options.tags.getD [])) then
    { consoleLines := []
      consoleErrors := []
      deliveries := []
      networkCall := Option.none
      returned := Option.none }
  else
    let result0 := render st.options.autoSpaceBetween args
    let result1 := st.transformersBefore.foldl (fun r t => t r) result0
    let final0 := result1 ++ RESET
    let final1 := st.transformersAfter.foldl (fun r t => t r) final0
    let final2 := if truthyStr st.options.trimBefore then final1.trimLeft else final1
    let final3 := if truthyStr st.options.trimAfter then final2.trimRight else final2
    let consoleLines := if truthyBool st.options.console then [final3] else []
    let resultObj : LogResult := { output := final3, stripped := stripAnsi final3 }
    let dispatched := dispatchAll st.listeners resultObj
    let networkCall := st.options.externalLogging.map (fun ext =>
      { url := ext.url
        method := ext.method.getD "POST"
        headers := [("Content-Type", "application/json")] ++ ext.headers.getD []
        body := resultObj.stripped })
    { consoleLines := consoleLines
      consoleErrors := dispatched.2
      deliveries := dispatched.1
      networkCall := networkCall
      returned := Option.some resultObj }

/-! ### removeEventListener

Listener identity in the source is JavaScript reference equality
(`listeners[i] === callback`, logger.ts line 207); it is modelled by an
arbitrary carrier type with decidable equality. -/

/-- The inner removal loop of `removeEventListener` (logger.ts lines
206-211): iterate from the last index down, splicing out every element
equal to the callback and recording each removal.  Written as structural
recursion (the recursion unwinds from the tail, matching the backward
iteration); returns the remaining list and the number of removals. -/
def removeLoop {α : Type} [DecidableEq α] (callback : α) : List α → List α × Nat
  | [] => ([], 0)
  | l :: rest =>
      let r := removeLoop callback rest
      if l = callback then (r.1, r.2 + 1) else (l :: r.1, r.2)

/-- `ComfyLogger.removeEventListener` (logger.ts lines 202-219); the only
registered event type is `'log'`, so the scan over event types visits one
list.  Returns the updated listener list, whether a "not found" warning was
emitted, and the boolean result `foundListeners.length > 0`. -/
def removeEventListener {α : Type} [DecidableEq α] (listeners : List α) (callback : α) :
    List α × Bool × Bool :=
  let r := removeLoop callback listeners
  (r.1, decide (r.2 = 0), decide (r.2 > 0))

/-! ### Helper lemmas -/

theorem strAppendAssoc : ∀ (a b c : String), a ++ b ++ c = a ++ (b ++ c) := by
  intro ⟨a⟩ ⟨b⟩ ⟨c⟩
  show String.mk (a ++ b ++ c) = String.mk (a ++ (b ++ c))
  rw [List.append_assoc]

theorem listGetEqHeadDrop {α : Type} : ∀ (l : List α) (i : Nat), l.get? i = (l.drop i).head?
  | [], 0 => rfl
  | [], _ + 1 => rfl
  | _ :: _, 0 => rfl
  | _ :: xs, i + 1 => listGetEqHeadDrop xs i

theorem listDropSucc {α : Type} : ∀ (l : List α) (i : Nat), l.drop (i + 1) = (l.drop i).tail
  | [], 0 => rfl
  | [], _ + 1 => rfl
  | _ :: _, 0 => rfl
  | _ :: xs, i + 1 => listDropSucc xs i

theorem taggedPartSome (v : JSVal) : taggedPart (Option.some v) = renderValueAmended v := by
  cases v <;> rfl

theorem renderTaggedLoopEq (vs : List JSVal) :
    ∀ (ps : List String) (i : Nat) (acc : String),
      renderTaggedLoop vs ps (i + 1) acc = acc ++ renderTaggedTail ps (vs.drop i) := by
  intro ps
  induction ps with
  | nil =>
      intro i acc
      simp [renderTaggedLoop, renderTaggedTail]
  | cons p ps ih =>
      intro i acc
      rw [renderTaggedLoop]
      simp only [Nat.succ_ne_zero, if_neg, Nat.add_sub_cancel]
      rw [ih (i + 1)]
      rw [listDropSucc, listGetEqHeadDrop]
      cases h : vs.drop i with
      | nil =>
          simp [renderTaggedTail, taggedPart, strAppendAssoc]
      | cons v vs2 =>
          simp only [List.head?, List.tail, renderTaggedTail]
          simp [strAppendAssoc, taggedPartSome]

theorem interleaveEqTail :
    ∀ (ps : List String) (vs : List JSVal), ps.length = vs.length →
      ∀ p, interleaveWith renderValueAmended (p :: ps) vs = p ++ renderTaggedTail ps vs
  | [], [], _, p => by simp [interleaveWith, renderTaggedTail]
  | [], _ :: _, h, p => by simp at h
  | _ :: _, [], h, p => by simp at h
  | p2 :: ps, v :: vs, h, p => by
      have h2 : ps.length = vs.length := by simpa using h
      rw [interleaveWith, interleaveEqTail ps vs h2 p2]
      simp [renderTaggedTail, strAppendAssoc]

/-- C3 (amended), general form: for a well-shaped tagged-template call the
rendering is the positional interleaving with the per-value rendering that
maps `undefined` to the empty string. -/
theorem renderTaggedAsInterleave (parts : List String) (values : List JSVal)
    (h : parts.length = values.length + 1) :
    renderTagged parts values = interleaveWith renderValueAmended parts values := by
  cases parts with
  | nil => simp at h
  | cons p ps =>
      have hlen : ps.length = values.length := by simpa using h
      rw [renderTagged, renderTaggedLoop]
      simp only [if_pos rfl]
      rw [show (0 : Nat) + 1 = 0 + 1 from rfl, renderTaggedLoopEq values ps 0]
      rw [interleaveEqTail ps values hlen p]
      simp [taggedPart, List.drop_zero]

/-- C3 counterexample: at the tagged-template call with parts `["a", "b"]`
and the single interpolated value `undefined`, the code renders `"ab"`,
while the claim's formula (string-converting every non-callable value, so
`String(undefined) = "undefined"`) yields `"aundefinedb"`. -/
theorem renderTaggedSpecCounterexample :
    renderTagged ["a", "b"] [JSVal.undef] = "ab" ∧
      interleaveWith renderValueSpecC3 ["a", "b"] [JSVal.undef] = "aundefinedb" ∧
      renderTagged ["a", "b"] [JSVal.undef] ≠
        interleaveWith renderValueSpecC3 ["a", "b"] [JSVal.undef] := by
  refine ⟨rfl, rfl, ?_⟩
  decide

/-- Witness for the C3 theorem at the concrete call
`` log`x${"v"}y` ``. -/
theorem renderTaggedAsInterleaveWitness :
    (["x", "y"] : List String).length = ([JSVal.str "v"] : List JSVal).length + 1 ∧
      renderTagged ["x", "y"] [JSVal.str "v"] =
        interleaveWith renderValueAmended ["x", "y"] [JSVal.str "v"] :=
  ⟨rfl, renderTaggedAsInterleave ["x", "y"] [JSVal.str "v"] rfl⟩

/-! ### C10: undefined interpolations contribute the empty string -/

theorem renderTaggedLoopCongr (vs ws : List JSVal)
    (h : ∀ j, taggedPart (vs.get? j) = taggedPart (ws.get? j)) :
    ∀ (ps : List String) (i : Nat) (acc : String),
      renderTaggedLoop vs ps i acc = renderTaggedLoop ws ps i acc := by
  intro ps
  induction ps with
  | nil => intro i acc; rfl
  | cons p ps ih =>
      intro i acc
      rw [renderTaggedLoop, renderTaggedLoop]
      have hpart : taggedPart (if i = 0 then Option.none else vs.get? (i - 1)) =
          taggedPart (if i = 0 then Option.none else ws.get? (i - 1)) := by
        cases i with
        | zero => rfl
        | succ j => simpa using h j
      rw [hpart]
      exact ih (i + 1) _

theorem undefPointwise (vs2 : List JSVal) :
    ∀ (vs1 : List JSVal) (j : Nat),
      taggedPart ((vs1 ++ JSVal.undef :: vs2).get? j) =
        taggedPart ((vs1 ++ JSVal.str "" :: vs2).get? j)
  | [], 0 => rfl
  | [], _ + 1 => rfl
  | _ :: _, 0 => rfl
  | _ :: vs1, j + 1 => undefPointwise vs2 vs1 j

/-- C10: in a tagged-template call, an interpolated value that is
`undefined` contributes the empty string to the rendered output — the
rendering is unchanged if that position instead holds the empty string
(and the contribution of an `undefined` value is literally `""`). -/
theorem taggedUndefContributesEmpty :
    (∀ (parts : List String) (vs1 vs2 : List JSVal),
        renderTagged parts (vs1 ++ JSVal.undef :: vs2) =
          renderTagged parts (vs1 ++ JSVal.str "" :: vs2)) ∧
      taggedPart (Option.some JSVal.undef) = "" := by
  constructor
  · intro parts vs1 vs2
    rw [renderTagged, renderTagged]
    exact renderTaggedLoopCongr _ _ (fun j => undefPointwise vs2 vs1 j) parts 0 ""
  · rfl

/-- C4: for every escape code `c`, the style function returned by
`makeStyle c` yields exactly `c` when applied to no argument (`undefined`),
and `c ++ x ++ RESET` when applied to text `x`. -/
theorem makeStyleContract :
    ∀ (code : String), makeStyle code Option.none = code ∧
      ∀ (text : String), makeStyle code (Option.some text) = code ++ text ++ RESET :=
  fun _ => ⟨rfl, fun _ => rfl⟩

/-! ### C9: stripping is the identity on escape-free text -/

theorem stripAnsiFuelId :
    ∀ (fuel : Nat) (cs : List Char), cs.length ≤ fuel → hasEscMatch cs = false →
      stripAnsiFuel fuel cs = cs := by
  intro fuel
  induction fuel with
  | zero =>
      intro cs hlen _
      cases cs with
      | nil => rfl
      | cons c rest => simp at hlen
  | succ fuel ih =>
      intro cs hlen hmatch
      cases cs with
      | nil => rfl
      | cons c rest =>
          rw [hasEscMatch] at hmatch
          have hparts := Bool.or_eq_false_iff.mp hmatch
          have hrest : hasEscMatch rest = false := hparts.2
          have hlen2 : rest.length ≤ fuel := by
            simpa using Nat.le_of_succ_le_succ hlen
          rw [stripAnsiFuel]
          by_cases hc : c = '\x1b'
          · have hand := Bool.and_eq_false_iff.mp hparts.1
            have hnone : matchAfterEsc rest = Option.none := by
              cases hand with
              | inl hd => simp [hc] at hd
              | inr hs => exact Option.not_isSome_iff_eq_none.mp (by simp [hs])
            rw [if_pos hc, hnone, ih rest hlen2 hrest]
          · rw [if_neg hc, ih rest hlen2 hrest]

/-- C9: for every text that contains no character sequence matched by the
escape-removal pattern (ANSI CSI sequences and OSC-8 hyperlink sequences),
the stripping function is the identity. -/
theorem stripAnsiIdOnEscapeFree (s : String) (h : hasEscMatch s.data = false) :
    stripAnsi s = s := by
  cases s with
  | mk data =>
      show String.mk (stripAnsiChars data) = String.mk data
      rw [stripAnsiChars, stripAnsiFuelId data.length data (Nat.le_refl _) h]

/-- Witness for the C9 theorem on the escape-free text `"hello world"`. -/
theorem stripAnsiIdOnEscapeFreeWitness :
    hasEscMatch "hello world".data = false ∧ stripAnsi "hello world" = "hello world" :=
  ⟨by decide, stripAnsiIdOnEscapeFree "hello world" (by decide)⟩

/-! ### Logger states used for the pipeline claims -/

/-- The initial `options` of a `ComfyLogger` instance (logger.ts lines
122-129), seeded from the shared global defaults (lines 28-37). -/
def defaultOptions : LoggerRuntimeConfig :=
  { autoSpaceBetween := true
    timestampFormat := Option.some "HH:mm:ss"
    externalLogging := Option.none
    console := Option.some true
    tags := Option.some []
    logErrorsToConsole := Option.some true }

/-- A freshly constructed logger: default options, no listeners, no
transformers. -/
def defaultState : LoggerState :=
  { options := defaultOptions
    listeners := []
    transformersBefore := []
    transformersAfter := [] }

/-- A fresh logger configured with auto-spacing disabled. -/
def autoSpaceOffState : LoggerState :=
  { defaultState with options := { defaultOptions with autoSpaceBetween := false } }

/-- C5: in an ordinary (non-tagged) call the arguments are rendered
(callables invoked with no argument, others string-converted) and joined
with a single space when auto-spacing is on, concatenated directly when it
is off; in particular `log("a", "b")` produces the output `"a b"` plus the
trailing reset (stripped: `"a b"`) with auto-spacing on, and `"ab"` plus
the reset with it off. -/
theorem ordinaryRenderSpacing :
    (∀ a b : String,
        renderOrdinary true [JSVal.str a, JSVal.str b] = a ++ " " ++ b ∧
          renderOrdinary false [JSVal.str a, JSVal.str b] = a ++ b) ∧
      (logRun [] [] defaultState (LogArgs.ordinary (JSVal.str "a") [JSVal.str "b"])).returned =
        Option.some { output := "a b" ++ RESET, stripped := "a b" } ∧
      (logRun [] [] autoSpaceOffState (LogArgs.ordinary (JSVal.str "a") [JSVal.str "b"])).returned =
        Option.some { output := "ab" ++ RESET, stripped := "ab" } := by
  refine ⟨fun a b => ⟨rfl, ?_⟩, ?_, ?_⟩
  · show a ++ "" ++ b = a ++ b
    rw [String.append_empty]
  · decide
  · decide

/-- A logger carrying tag `"t"`, one (non-throwing) listener and an
external-logging target — the configuration of the C1 failing input. -/
def c1State : LoggerState :=
  { options :=
      { defaultOptions with
          tags := Option.some ["t"]
          externalLogging := Option.some { url := "https://example.com/log" } }
    listeners := [fun _ => Except.ok ()]
    transformersBefore := []
    transformersAfter := [] }

/-- C1, evaluated at the failing input: with tag `"t"` blacklisted and not
whitelisted, `#shouldLog` returns `true` and the `log` call is NOT
suppressed — it renders, writes to the console, dispatches to the listener,
issues the network call and returns the result pair, contradicting the
claim (the source's whitelist check at logger.ts lines 267-276 is
inverted relative to its own comments). -/
theorem blacklistedTagNotSuppressed :
    shouldLog ["t"] [] ["t"] = true ∧
      (logRun ["t"] [] c1State (LogArgs.ordinary (JSVal.str "m") [])).returned =
        Option.some { output := "m" ++ RESET, stripped := "m" } ∧
      (logRun ["t"] [] c1State (LogArgs.ordinary (JSVal.str "m") [])).consoleLines =
        ["m" ++ RESET] ∧
      (logRun ["t"] [] c1State (LogArgs.ordinary (JSVal.str "m") [])).deliveries =
        [{ output := "m" ++ RESET, stripped := "m" }] ∧
      (logRun ["t"] [] c1State (LogArgs.ordinary (JSVal.str "m") [])).networkCall =
        Option.some
          { url := "https://example.com/log"
            method := "POST"
            headers := [("Content-Type", "application/json")]
            body := "m" } := by
  refine ⟨rfl, ?_, ?_, ?_, ?_⟩ <;> decide

/-- A logger carrying tag `"t"` and one listener — the configuration of the
C2 failing input. -/
def c2State : LoggerState :=
  { options := { defaultOptions with tags := Option.some ["t"] }
    listeners := [fun _ => Except.ok ()]
    transformersBefore := []
    transformersAfter := [] }

/-- C2, evaluated at the failing input: with tag `"t"` both blacklisted and
whitelisted (and no other tag on the logger), `#shouldLog` returns `false`
and the `log` call IS suppressed — nothing is rendered, dispatched, written
or returned, contradicting the claim (same inverted check as C1). -/
theorem whitelistedTagSuppressed :
    shouldLog ["t"] ["t"] ["t"] = false ∧
      (logRun ["t"] ["t"] c2State (LogArgs.ordinary (JSVal.str "m") [])).returned =
        Option.none ∧
      (logRun ["t"] ["t"] c2State (LogArgs.ordinary (JSVal.str "m") [])).deliveries = [] ∧
      (logRun ["t"] ["t"] c2State (LogArgs.ordinary (JSVal.str "m") [])).consoleLines = [] ∧
      (logRun ["t"] ["t"] c2State (LogArgs.ordinary (JSVal.str "m") [])).networkCall =
        Option.none := by
  refine ⟨rfl, ?_, ?_, ?_, ?_⟩ <;> decide

/-! ### C6: listener dispatch -/

/-- The `console.error` reports produced by the dispatch loop: one entry per
listener whose invocation throws. -/
def listenerErrorReports (r : LogResult) : List ListenerFn → List String
  | [] => []
  | f :: fs =>
      match f r with
      | Except.ok _ => listenerErrorReports r fs
      | Except.error e => ("Error in log event listener: " ++ e) :: listenerErrorReports r fs

theorem dispatchFoldAux (r : LogResult) :
    ∀ (ls : List ListenerFn) (acc : List LogResult × List String),
      ls.foldl
        (fun acc onLog =>
          match onLog r with
          | Except.ok _ => (acc.1 ++ [r], acc.2)
          | Except.error e => (acc.1 ++ [r], acc.2 ++ ["Error in log event listener: " ++ e]))
        acc =
        (acc.1 ++ ls.map (fun _ => r), acc.2 ++ listenerErrorReports r ls) := by
  intro ls
  induction ls with
  | nil => intro acc; simp [listenerErrorReports]
  | cons f fs ih =>
      intro acc
      rw [List.foldl_cons]
      cases hf : f r with
      | ok u =>
          simp only [hf, ih, listenerErrorReports]
          simp [List.append_assoc]
      | error e =>
          simp only [hf, ih, listenerErrorReports]
          simp [List.append_assoc]

theorem dispatchAllEq (ls : List ListenerFn) (r : LogResult) :
    dispatchAll ls r = (ls.map (fun _ => r), listenerErrorReports r ls) := by
  rw [dispatchAll, dispatchFoldAux]
  simp

/-- C6: for every non-suppressed log call, the `{output, stripped}` pair is
dispatched to every registered listener in registration order (each of the
`n` registered listeners is invoked with the same result pair, a throwing
listener notwithstanding), every thrown listener error is reported to the
console sink, and the call still returns the result pair to the caller. -/
theorem listenerDispatchRobust (bl wl : List String) (st : LoggerState) (args : LogArgs)
    (h : shouldLog bl wl (st.options.tags.getD []) = true) :
    ∃ r, (logRun bl wl st args).returned = Option.some r ∧
      (logRun bl wl st args).deliveries = st.listeners.map (fun _ => r) ∧
      (logRun bl wl st args).consoleErrors = listenerErrorReports r st.listeners := by
  simp only [logRun, h, Bool.not_true, Bool.false_eq_true, if_false]
  exact ⟨_, rfl, congrArg Prod.fst (dispatchAllEq st.listeners _),
    congrArg Prod.snd (dispatchAllEq st.listeners _)⟩

/-- A logger with two listeners, the first of which throws. -/
def c6State : LoggerState :=
  { options := defaultOptions
    listeners := [fun _ => Except.error "boom", fun _ => Except.ok ()]
    transformersBefore := []
    transformersAfter := [] }

/-- Witness for the C6 theorem: a logger with a throwing first listener and
an ordinary second listener, on an unfiltered call. -/
theorem listenerDispatchRobustWitness :
    shouldLog [] [] (c6State.options.tags.getD []) = true ∧
      (∃ r, (logRun [] [] c6State (LogArgs.ordinary (JSVal.str "m") [])).returned =
          Option.some r ∧
        (logRun [] [] c6State (LogArgs.ordinary (JSVal.str "m") [])).deliveries =
          c6State.listeners.map (fun _ => r) ∧
        (logRun [] [] c6State (LogArgs.ordinary (JSVal.str "m") [])).consoleErrors =
          listenerErrorReports r c6State.listeners) :=
  ⟨rfl, listenerDispatchRobust [] [] c6State (LogArgs.ordinary (JSVal.str "m") []) rfl⟩

/-! ### C7: removeEventListener -/

theorem removeLoopEq {α : Type} [DecidableEq α] (f : α) :
    ∀ ls : List α,
      removeLoop f ls = (ls.filter (fun l => l ≠ f), ls.countP (fun l => l = f)) := by
  intro ls
  induction ls with
  | nil => simp [removeLoop]
  | cons l rest ih =>
      rw [removeLoop, ih]
      by_cases hl : l = f
      · simp [hl, List.filter_cons, List.countP_cons]
      · simp [hl, List.filter_cons, List.countP_cons]

/-- C7: `removeEventListener` with a callback not registered for any event
returns `false`, emits the "not found" warning and leaves the listener list
unchanged; with a registered callback it returns `true` and removes every
matching instance, so the callback can receive no subsequent dispatch.
(Listener identity — JavaScript reference equality — is modelled by a
carrier type with decidable equality; `'log'` is the only event type.) -/
theorem removeEventListenerSpec {α : Type} [DecidableEq α] (ls : List α) (f : α) :
    (f ∉ ls → removeEventListener ls f = (ls, true, false)) ∧
      (f ∈ ls →
        (removeEventListener ls f).2.2 = true ∧
          f ∉ (removeEventListener ls f).1 ∧
          (removeEventListener ls f).2.1 = false) := by
  constructor
  · intro hni
    rw [removeEventListener, removeLoopEq]
    have hfilter : ls.filter (fun l => l ≠ f) = ls := by
      rw [List.filter_eq_self]
      intro a ha
      simp
      intro heq
      exact hni (heq ▸ ha)
    have hcount : ls.countP (fun l => l = f) = 0 := by
      rw [List.countP_eq_zero]
      intro a ha
      simp
      intro heq
      exact hni (heq ▸ ha)
    rw [hfilter, hcount]
    rfl
  · intro hin
    rw [removeEventListener, removeLoopEq]
    have hcount : 0 < ls.countP (fun l => l = f) := by
      rw [List.countP_pos_iff]
      exact ⟨f, hin, by simp⟩
    refine ⟨by simp [hcount], ?_, by simp [Nat.pos_iff_ne_zero.mp hcount]⟩
    simp [List.mem_filter]

/-- Witness for the C7 theorem: removing an unregistered callback from
`[1, 2, 1]` is a no-op returning `false`; removing the registered callback
`1` returns `true` and removes both instances. -/
theorem removeEventListenerSpecWitness :
    removeEventListener [1, 2, 1] 3 = ([1, 2, 1], true, false) ∧
      ((removeEventListener [1, 2, 1] 1).2.2 = true ∧
        1 ∉ (removeEventListener [1, 2, 1] 1).1 ∧
        (removeEventListener [1, 2, 1] 1).2.1 = false) :=
  ⟨(removeEventListenerSpec [1, 2, 1] 3).1 (by decide),
    (removeEventListenerSpec [1, 2, 1] 1).2 (by decide)⟩

/-! ### C8: configure is a shallow, non-destructive, last-write-wins merge -/

/-- C8: for every configuration and every patch record, `configure` leaves
every field not mentioned in the patch unchanged, and every field mentioned
in the patch takes the patch's value. -/
theorem configureMerge (opts : LoggerRuntimeConfig) (p : OptionsPatch) :
    ((p.autoSpaceBetween = Option.none →
        (configure opts p).autoSpaceBetween = opts.autoSpaceBetween) ∧
      ∀ v, p.autoSpaceBetween = Option.some v → (configure opts p).autoSpaceBetween = v) ∧
    ((p.timestampFormat = Option.none →
        (configure opts p).timestampFormat = opts.timestampFormat) ∧
      ∀ v, p.timestampFormat = Option.some v → (configure opts p).timestampFormat = v) ∧
    ((p.trimBefore = Option.none → (configure opts p).trimBefore = opts.trimBefore) ∧
      ∀ v, p.trimBefore = Option.some v → (configure opts p).trimBefore = v) ∧
    ((p.trimAfter = Option.none → (configure opts p).trimAfter = opts.trimAfter) ∧
      ∀ v, p.trimAfter = Option.some v → (configure opts p).trimAfter = v) ∧
    ((p.externalLogging = Option.none →
        (configure opts p).externalLogging = opts.externalLogging) ∧
      ∀ v, p.externalLogging = Option.some v → (configure opts p).externalLogging = v) ∧
    ((p.console = Option.none → (configure opts p).console = opts.console) ∧
      ∀ v, p.console = Option.some v → (configure opts p).console = v) ∧
    ((p.tags = Option.none → (configure opts p).tags = opts.tags) ∧
      ∀ v, p.tags = Option.some v → (configure opts p).tags = v) ∧
    ((p.logErrorsToConsole = Option.none →
        (configure opts p).logErrorsToConsole = opts.logErrorsToConsole) ∧
      ∀ v, p.logErrorsToConsole = Option.some v → (configure opts p).logErrorsToConsole = v) :=
  ⟨⟨fun h => by simp [configure, h], fun v h => by simp [configure, h]⟩,
    ⟨fun h => by simp [configure, h], fun v h => by simp [configure, h]⟩,
    ⟨fun h => by simp [configure, h], fun v h => by simp [configure, h]⟩,
    ⟨fun h => by simp [configure, h], fun v h => by simp [configure, h]⟩,
    ⟨fun h => by simp [configure, h], fun v h => by simp [configure, h]⟩,
    ⟨fun h => by simp [configure, h], fun v h => by simp [configure, h]⟩,
    ⟨fun h => by simp [configure, h], fun v h => by simp [configure, h]⟩,
    ⟨fun h => by simp [configure, h], fun v h => by simp [configure, h]⟩⟩

/-- A concrete configuration for the C8 witness. -/
def c8opts : LoggerRuntimeConfig := defaultOptions

/-- A concrete patch for the C8 witness: mentions `autoSpaceBetween` and
`tags`, leaves the other fields out. -/
def c8patch : OptionsPatch :=
  { autoSpaceBetween := Option.some false
    tags := Option.some (Option.some ["x"]) }

/-- Witness for the C8 theorem: the two mentioned fields take the patch's
values, an unmentioned field keeps its previous value. -/
theorem configureMergeWitness :
    (configure c8opts c8patch).autoSpaceBetween = false ∧
      (configure c8opts c8patch).tags = Option.some ["x"] ∧
      (configure c8opts c8patch).console = c8opts.console :=
  ⟨(configureMerge c8opts c8patch).1.2 false rfl,
    (configureMerge c8opts c8patch).2.2.2.2.2.2.1.2 (Option.some ["x"]) rfl,
    (configureMerge c8opts c8patch).2.2.2.2.2.1.1 rfl⟩
